import Mathlib

/-!
Shallow embedding of the messaging / presence / livestream core of the
social-media-blog-app repository (Django app: `users/api.py`,
`users/consumers.py`, `users/models.py`, `blog/api.py`).

Modelling conventions:
* User identities are `Nat` ids (Django `User.id`).
* Timestamps are `Nat` seconds; `timezone.now()` is an explicit `now`
  argument.  Database auto-ids (`uuid4`) are explicit `Nat` arguments.
* A Django queryset for a conversation's / stream's children is embedded
  as a Lean `List` kept in creation order (ascending `created_at`):
  `auto_now_add` assigns each new row the current, strictly larger,
  timestamp and the code always appends.  Consequently
  `order_by('created_at')` is the list itself and `order_by('-created_at')`
  is its reversal.
* A fallible REST / WebSocket handler returns `Except String α`; the
  error string is the literal message from the source.  An error response
  leaves the store untouched, which the `*_apply` wrappers make explicit.
-/

/-- Embeds `users.models.DirectMessage` (the fields the claims touch). -/
structure DirectMessage where
  id : Nat
  sender : Nat
  content : String
  message_type : String
  created_at : Nat
  read_at : Option Nat
  is_unsent : Bool
  is_encrypted : Bool
  deriving Repr, DecidableEq

/-- Embeds `users.models.Conversation`: participant ids, the message-request
fields, and its messages in creation order. -/
structure Conversation where
  participants : List Nat
  is_request : Bool
  request_status : String
  msgs : List DirectMessage
  updated_at : Nat
  deriving Repr, DecidableEq

/-- `Conversation.get_other_participant`:
`self.participants.exclude(id=user.id).first()`. -/
def get_other_participant (c : Conversation) (u : Nat) : Option Nat :=
  (c.participants.filter (fun v => v != u)).head?

/-- `Profile.is_online` (`users/models.py`): online iff `last_seen` is set and
`(now - last_seen).total_seconds() < 45`.  (With `Nat` subtraction a
`last_seen` in the future yields `0 < 45 = true`, matching the Python
comparison of a negative difference.) -/
def is_online (last_seen : Option Nat) (now : Nat) : Bool :=
  match last_seen with
  | none => false
  | some t => now - t < 45

/-- Python's `str.strip()` used on message content: remove leading and
trailing whitespace.  (Defined over the character list so that it is
structurally recursive and evaluates inside the kernel.) -/
def strip (s : String) : String :=
  String.mk
    (((s.data.dropWhile fun ch => ch.isWhitespace).reverse.dropWhile
      fun ch => ch.isWhitespace).reverse)

/-- The per-message effect of the bulk update
`filter(read_at__isnull=True).exclude(sender=caller).update(read_at=now)`
used by both `conversation_messages_view` GET and
`ChatConsumer.mark_messages_read`: only `read_at` is touched, and only on
unread messages from a different sender. -/
def read_update (u now : Nat) (m : DirectMessage) : DirectMessage :=
  if m.read_at = none ∧ m.sender ≠ u then { m with read_at := some now } else m

/-- `ChatConsumer.mark_messages_read` (`users/consumers.py`): counts the
conversation's messages with null `read_at` and a sender other than the
caller, sets their `read_at` to now, and returns the count.  The source
performs no participant check here. -/
def mark_messages_read (c : Conversation) (u : Nat) (now : Nat) :
    Conversation × Nat :=
  let count :=
    (c.msgs.filter (fun m => decide (m.read_at = none ∧ m.sender ≠ u))).length
  ({ c with msgs := c.msgs.map (read_update u now) }, count)

/-- `conversation_messages_view` GET (`users/api.py`): requires the caller to
be a participant, then marks every unread message from another sender as read
and returns the (updated) messages in `created_at` order. -/
def conversation_messages_get (c : Conversation) (u : Nat) (now : Nat) :
    Except String (Conversation × List DirectMessage) :=
  if u ∈ c.participants then
    let msgs' := c.msgs.map (read_update u now)
    .ok ({ c with msgs := msgs' }, msgs')
  else .error "Conversation not found"

/-- `DirectMessage.objects.create(...)`: the freshly stored message row (a
REST send stores the trimmed content; the WebSocket path passes
`is_encrypted` implicitly false). -/
def new_direct_message (u : Nat) (content message_type : String)
    (is_encrypted : Bool) (now new_id : Nat) : DirectMessage :=
  { id := new_id, sender := u, content := content,
    message_type := message_type, created_at := now, read_at := none,
    is_unsent := false, is_encrypted := is_encrypted }

/-- `conversation_messages_view` POST (`users/api.py`): participant check,
content validation (trim, emptiness for text, length bound 10000/5000),
message creation, `updated_at` bump, then the pending-request auto-accept:
if the conversation `is_request` and is still `pending`, and the other
participant exists, and after persisting the new message some message has a
sender other than the caller, `request_status` flips to `accepted`. -/
def conversation_messages_post (c : Conversation) (u : Nat)
    (raw_content message_type : String) (is_encrypted : Bool)
    (now new_id : Nat) : Except String Conversation :=
  if u ∈ c.participants then
    let content := strip raw_content
    if content = "" ∧ message_type = "text" then .error "Message cannot be empty"
    else
      let max_length := if is_encrypted then 10000 else 5000
      if content.length > max_length then .error "Message too long"
      else
        let m : DirectMessage :=
          new_direct_message u content message_type is_encrypted now new_id
        let c1 : Conversation := { c with msgs := c.msgs ++ [m], updated_at := now }
        if c1.is_request ∧ c1.request_status = "pending" then
          if (get_other_participant c1 u).isSome ∧
              c1.msgs.any (fun x => x.sender != u) then
            .ok { c1 with request_status := "accepted" }
          else .ok c1
        else .ok c1
  else .error "Conversation not found"

/-- `ChatConsumer.save_message` (`users/consumers.py`): rejects a caller who
is not a participant; on a still-pending request, rejects the caller when the
first message (by `created_at`, i.e. the head of the chronological list) was
sent by someone else; otherwise appends the message and bumps `updated_at`.
The WebSocket path never flips `request_status`. -/
def save_message (c : Conversation) (u : Nat) (content message_type : String)
    (now new_id : Nat) : Except String Conversation :=
  if u ∈ c.participants then
    if c.is_request ∧ c.request_status = "pending" ∧
        (match c.msgs.head? with
         | some first_msg => first_msg.sender != u
         | none => false) = true then
      .error "Cannot send messages to pending requests"
    else
      let m : DirectMessage :=
        new_direct_message u content message_type false now new_id
      .ok { c with msgs := c.msgs ++ [m], updated_at := now }
  else .error "Not a participant in this conversation"

/-- The conversation state after a WebSocket send: an error reply persists
nothing, so the store keeps the old conversation. -/
def save_message_apply (c : Conversation) (u : Nat)
    (content message_type : String) (now new_id : Nat) : Conversation :=
  match save_message c u content message_type now new_id with
  | .ok c' => c'
  | .error _ => c

/-- `ChatConsumer.get_conversation_recipient`:
`participants.exclude(id=self.user.id).first()`, with no participant check on
the caller. -/
def get_conversation_recipient (c : Conversation) (u : Nat) : Option Nat :=
  (c.participants.filter (fun v => v != u)).head?

/-- `ChatConsumer.handle_typing`: resolves the recipient and relays the
ephemeral typing event to their room; nothing is persisted and no
participant check is made. -/
def handle_typing (c : Conversation) (u : Nat) (is_typing : Bool) :
    Option (Nat × Bool) :=
  match get_conversation_recipient c u with
  | some recipient => some (recipient, is_typing)
  | none => none

/-- The per-message effect of the `unsend` action of `message_action_view`
(`users/api.py`): on the message the view looked up by
`id=message_id, sender=request.user`, set `is_unsent = true` and clear the
content; every other message is untouched. -/
def unsend_update (u message_id : Nat) (m : DirectMessage) : DirectMessage :=
  if m.id == message_id && m.sender == u then
    { m with is_unsent := true, content := "" }
  else m

/-- `message_action_view` (`users/api.py`) over the flat message store:
`DirectMessage.objects.get(id=message_id, sender=request.user)` raises
`DoesNotExist` (reported as "Message not found") unless the message exists
with the caller as sender; the `unsend` action then sets `is_unsent = true`
and clears the content. -/
def message_action (store : List DirectMessage) (u message_id : Nat)
    (action : String) : Except String (List DirectMessage) :=
  match store.find? (fun m => m.id == message_id && m.sender == u) with
  | none => .error "Message not found"
  | some _ =>
    if action = "unsend" then
      .ok (store.map (unsend_update u message_id))
    else .error "Invalid action"

/-- The message store after `message_action`: an error response persists
nothing. -/
def message_action_apply (store : List DirectMessage) (u message_id : Nat)
    (action : String) : List DirectMessage :=
  match message_action store u message_id action with
  | .ok store' => store'
  | .error _ => store

/-- The `filter(participants=a).filter(participants=b)` membership test of
`conversations_view` POST, as a predicate on one conversation. -/
def both_participants (a b : Nat) (c : Conversation) : Bool :=
  c.participants.contains a && c.participants.contains b

/-- How many stored conversations contain both users `a` and `b`. -/
def pair_count (convos : List Conversation) (a b : Nat) : Nat :=
  (convos.filter (both_participants a b)).length

/-- `conversations_view` POST (`users/api.py`): rejects messaging oneself,
returns the first existing conversation containing both users
(`filter(participants=request.user).filter(participants=recipient)`),
and otherwise creates a fresh one whose request fields depend on whether the
recipient follows the caller
(`Follow.objects.filter(follower=recipient, following=request.user)`). -/
def conversations_post (convos : List Conversation) (u recipient : Nat)
    (follows : Nat → Nat → Bool) (now : Nat) :
    Except String (List Conversation × Conversation) :=
  if recipient = u then .error "Cannot message yourself"
  else
    match convos.find? (both_participants u recipient) with
    | some convo => .ok (convos, convo)
    | none =>
      let is_follower := follows recipient u
      let convo : Conversation :=
        { participants := [u, recipient], is_request := !is_follower,
          request_status := if is_follower then "accepted" else "pending",
          msgs := [], updated_at := now }
      .ok (convos ++ [convo], convo)

/-- The conversation store after one `conversations_view` POST (errors leave
it unchanged). -/
def conversations_post_apply (convos : List Conversation) (u recipient : Nat)
    (follows : Nat → Nat → Bool) (now : Nat) : List Conversation :=
  match conversations_post convos u recipient follows now with
  | .ok (convos', _) => convos'
  | .error _ => convos

/-- The conversation store after a whole sequence of `conversations_view`
POST operations, each given as (caller, recipient, now). -/
def conversations_post_run (convos : List Conversation)
    (ops : List (Nat × Nat × Nat)) (follows : Nat → Nat → Bool) :
    List Conversation :=
  ops.foldl (fun cs op => conversations_post_apply cs op.1 op.2.1 follows op.2.2)
    convos

/-- Embeds `blog.models.LivestreamMessage`. -/
structure LivestreamMessage where
  id : Nat
  author : Nat
  content : String
  created_at : Nat
  deriving Repr, DecidableEq

/-- Embeds `blog.models.LivestreamSignal` (payload may be any non-null JSON;
an opaque `String` here). -/
structure LivestreamSignal where
  id : Nat
  role : String
  kind : String
  payload : String
  created_at : Nat
  deriving Repr, DecidableEq

/-- Embeds `blog.models.Livestream`: its status plus its chat messages and
signaling records, each in creation order. -/
structure Livestream where
  status : String
  msgs : List LivestreamMessage
  signals : List LivestreamSignal
  deriving Repr, DecidableEq

/-- `order_by('-created_at')` on a child list kept in creation order with
strictly increasing `auto_now_add` timestamps: the reversal. -/
def order_by_created_desc {α : Type} (l : List α) : List α := l.reverse

/-- `LivestreamViewSet.messages` GET (`blog/api.py`): takes the last 100
messages in reverse-chronological order (`order_by('-created_at')[:100]`) and
re-reverses them before responding. -/
def livestream_messages_get (s : Livestream) : List LivestreamMessage :=
  ((order_by_created_desc s.msgs).take 100).reverse

/-- `LivestreamViewSet.messages` POST (`blog/api.py`): requires an
authenticated user and a live stream; trims the content, rejecting empty and
over-500-character messages; then stores the message. -/
def livestream_messages_post (s : Livestream) (user : Option Nat)
    (raw_content : String) (now new_id : Nat) :
    Except String (Livestream × LivestreamMessage) :=
  match user with
  | none => .error "Login required"
  | some uid =>
    if s.status ≠ "live" then .error "Stream is not live"
    else
      let content := strip raw_content
      if content = "" then .error "Message cannot be empty"
      else if content.length > 500 then .error "Message too long"
      else
        let m : LivestreamMessage :=
          { id := new_id, author := uid, content := content, created_at := now }
        .ok ({ s with msgs := s.msgs ++ [m] }, m)

/-- The stream after a chat POST (errors store nothing). -/
def livestream_messages_post_apply (s : Livestream) (user : Option Nat)
    (raw_content : String) (now new_id : Nat) : Livestream :=
  match livestream_messages_post s user raw_content now new_id with
  | .ok (s', _) => s'
  | .error _ => s

/-- `LivestreamSignal.objects.create(...)`: the freshly stored signaling
record. -/
def new_signal (role kind payload : String) (now new_id : Nat) :
    LivestreamSignal :=
  { id := new_id, role := role, kind := kind, payload := payload,
    created_at := now }

/-- `LivestreamViewSet.signals` POST (`blog/api.py`): validates `role` against
{host, viewer} and `kind` against {offer, answer, candidate}, requires a
payload, stores the record, then prunes: every record beyond the 100 newest
(`order_by('-created_at')[100:]`) is deleted by id. -/
def livestream_signals_post (s : Livestream) (role kind : String)
    (payload : Option String) (now new_id : Nat) : Except String Livestream :=
  if ¬ (role = "host" ∨ role = "viewer") ∨
      ¬ (kind = "offer" ∨ kind = "answer" ∨ kind = "candidate") then
    .error "Invalid role or kind"
  else
    match payload with
    | none => .error "Missing payload"
    | some p =>
      let signals1 := s.signals ++ [new_signal role kind p now new_id]
      let excess := (order_by_created_desc signals1).drop 100
      .ok { s with
        signals := signals1.filter (fun x => !(excess.any (fun e => e.id == x.id))) }

/-- A shorthand message literal used by the concrete instances below. -/
def mkMsg (i s : Nat) (content : String) (t : Nat) (r : Option Nat) :
    DirectMessage :=
  { id := i, sender := s, content := content, message_type := "text",
    created_at := t, read_at := r, is_unsent := false, is_encrypted := false }

/-- A two-party conversation (users 1 and 2) holding one unread message from
user 1; used as concrete test state. -/
def convA : Conversation :=
  { participants := [1, 2], is_request := false, request_status := "accepted",
    msgs := [mkMsg 10 1 "hi" 1 none], updated_at := 1 }

/-- A pending message-request conversation initiated by user 1 toward user 2,
holding the initiating message; used as concrete test state. -/
def convReq : Conversation :=
  { participants := [1, 2], is_request := true, request_status := "pending",
    msgs := [mkMsg 10 1 "hello" 1 none], updated_at := 1 }

/-- A live stream with one chat message and two stored signals; used as
concrete test state. -/
def streamA : Livestream :=
  { status := "live",
    msgs := [{ id := 0, author := 1, content := "yo", created_at := 1 }],
    signals :=
      [{ id := 0, role := "host", kind := "offer", payload := "sdp0",
         created_at := 1 },
       { id := 1, role := "viewer", kind := "answer", payload := "sdp1",
         created_at := 2 }] }

/-- A scheduled (not live) stream with no content; used as concrete test
state. -/
def streamScheduled : Livestream :=
  { status := "scheduled", msgs := [], signals := [] }

/-- A 501-character message body (non-empty, unchanged by trimming). -/
def longContent : String := String.mk (List.replicate 501 'a')

/-- C9: `is_online` is true exactly when a timestamp is stored and it is less
than 45 seconds old. -/
theorem C9_is_online_characterization (last_seen : Option Nat) (now : Nat) :
    is_online last_seen now = true ↔
      ∃ t, last_seen = some t ∧ now - t < 45 := by
  cases last_seen with
  | none => simp [is_online]
  | some t => simp [is_online]

/-- A second read-marking pass changes no individual message. -/
lemma read_update_idem (u t t' : Nat) (m : DirectMessage) :
    read_update u t' (read_update u t m) = read_update u t m := by
  by_cases h : m.read_at = none ∧ m.sender ≠ u
  · simp [read_update, h]
  · simp [read_update, h]

/-- A second read-marking pass changes no message of a marked list. -/
lemma map_read_update_idem (u t t' : Nat) (l : List DirectMessage) :
    (l.map (read_update u t)).map (read_update u t') = l.map (read_update u t) := by
  rw [List.map_map]
  exact List.map_congr_left fun a _ => read_update_idem u t t' a

/-- After read-marking, no message is both unread and from another sender. -/
lemma filter_unread_map_read_update (u t : Nat) (l : List DirectMessage) :
    (l.map (read_update u t)).filter
      (fun m => decide (m.read_at = none ∧ m.sender ≠ u)) = [] := by
  rw [List.filter_eq_nil_iff]
  intro a ha
  rcases List.mem_map.mp ha with ⟨m, _, rfl⟩
  by_cases h : m.read_at = none ∧ m.sender ≠ u
  · simp [read_update, h]
  · simp [read_update, h]

/-- `mark_messages_read` on a conversation whose messages are already the
result of a read-marking pass returns the conversation unchanged with
count 0. -/
lemma mark_messages_read_of_marked (c : Conversation) (u t t' : Nat)
    (hmsgs : ∃ l : List DirectMessage, c.msgs = l.map (read_update u t)) :
    mark_messages_read c u t' = (c, 0) := by
  obtain ⟨l, hl⟩ := hmsgs
  show ({ c with msgs := c.msgs.map (read_update u t') },
    (c.msgs.filter (fun m => decide (m.read_at = none ∧ m.sender ≠ u))).length)
      = (c, 0)
  rw [hl, map_read_update_idem, filter_unread_map_read_update, ← hl]
  rfl

/-- C5: `mark_messages_read` returns the number of messages that were unread
and from another sender, sets `read_at` to now on exactly those messages
(`read_update` touches nothing else), and is idempotent: an immediate second
call returns the same conversation with count 0. -/
theorem C5_mark_read_exact_and_idempotent (c : Conversation) (u t t' : Nat) :
    (mark_messages_read c u t).2 =
      (c.msgs.filter (fun m => decide (m.read_at = none ∧ m.sender ≠ u))).length ∧
    (mark_messages_read c u t).1.msgs = c.msgs.map (read_update u t) ∧
    mark_messages_read (mark_messages_read c u t).1 u t' =
      ((mark_messages_read c u t).1, 0) := by
  refine ⟨rfl, rfl, ?_⟩
  exact mark_messages_read_of_marked _ u t t' ⟨c.msgs, rfl⟩

/-- C10: fetching a conversation's messages over REST is not read-only: it
read-marks every unread message from another sender, returns the updated
message list, leaves every other conversation field unchanged, and a
subsequent `mark_messages_read` returns count 0 and changes nothing. -/
theorem C10_get_marks_read (c : Conversation) (u now t' : Nat)
    (h : u ∈ c.participants) :
    ∃ c', conversation_messages_get c u now = .ok (c', c'.msgs) ∧
      c'.msgs = c.msgs.map (read_update u now) ∧
      c'.participants = c.participants ∧ c'.is_request = c.is_request ∧
      c'.request_status = c.request_status ∧ c'.updated_at = c.updated_at ∧
      mark_messages_read c' u t' = (c', 0) := by
  refine ⟨{ c with msgs := c.msgs.map (read_update u now) }, ?_, rfl, rfl, rfl,
    rfl, rfl, ?_⟩
  · unfold conversation_messages_get
    rw [if_pos h]
  · exact mark_messages_read_of_marked _ u now t' ⟨c.msgs, rfl⟩

/-- Witness for C10 at a concrete conversation: user 2 fetches `convA`. -/
theorem C10_witness :
    ∃ c', conversation_messages_get convA 2 7 = .ok (c', c'.msgs) ∧
      c'.msgs = convA.msgs.map (read_update 2 7) ∧
      c'.participants = convA.participants ∧ c'.is_request = convA.is_request ∧
      c'.request_status = convA.request_status ∧
      c'.updated_at = convA.updated_at ∧
      mark_messages_read c' 2 9 = (c', 0) :=
  C10_get_marks_read convA 2 7 9 (by decide)

/-- C2: on a still-pending message request whose first message was sent by
someone other than the caller, the WebSocket send is rejected with the
pending-request error and the conversation (hence its message list) is
unchanged. -/
theorem C2_ws_pending_request_rejected (c : Conversation) (u : Nat)
    (content mt : String) (now new_id : Nat) (m0 : DirectMessage)
    (hpart : u ∈ c.participants) (hreq : c.is_request = true)
    (hpend : c.request_status = "pending")
    (hfirst : c.msgs.head? = some m0) (hsender : m0.sender ≠ u) :
    save_message c u content mt now new_id =
      .error "Cannot send messages to pending requests" ∧
    save_message_apply c u content mt now new_id = c := by
  have hcond : c.is_request = true ∧ c.request_status = "pending" ∧
      (match c.msgs.head? with
       | some first_msg => first_msg.sender != u
       | none => false) = true := by
    refine ⟨hreq, hpend, ?_⟩
    rw [hfirst]
    simpa using hsender
  constructor
  · unfold save_message
    rw [if_pos hpart, if_pos hcond]
  · unfold save_message_apply save_message
    rw [if_pos hpart, if_pos hcond]

/-- Witness for C2: user 2 tries to reply into the pending request `convReq`
opened by user 1. -/
theorem C2_witness :
    save_message convReq 2 "hey" "text" 5 11 =
      .error "Cannot send messages to pending requests" ∧
    save_message_apply convReq 2 "hey" "text" 5 11 = convReq :=
  C2_ws_pending_request_rejected convReq 2 "hey" "text" 5 11
    (mkMsg 10 1 "hello" 1 none) (by decide) (by decide) (by decide)
    (by decide) (by decide)

/-- Unsending twice changes nothing more than unsending once. -/
lemma unsend_update_idem (u mid : Nat) (m : DirectMessage) :
    unsend_update u mid (unsend_update u mid m) = unsend_update u mid m := by
  by_cases hc : (m.id == mid && m.sender == u) = true
  · simp [unsend_update, hc]
  · simp [unsend_update, hc]

/-- C6: `unsend` succeeds only for the message's original sender — any other
caller gets "Message not found" and the store is unchanged; on success the
targeted message ends with `is_unsent = true` and empty content while all
other messages survive untouched, and a second `unsend` by the sender
succeeds in the same way and leaves the store exactly as after the first. -/
theorem C6_unsend_owner_only_and_idempotent (store : List DirectMessage)
    (m : DirectMessage) (mid : Nat) (hm : m ∈ store) (hmid : m.id = mid)
    (hid : ∀ m' ∈ store, m'.id = mid → m' = m) :
    (∀ caller, caller ≠ m.sender →
      message_action store caller mid "unsend" = .error "Message not found" ∧
      message_action_apply store caller mid "unsend" = store) ∧
    (∃ store', message_action store m.sender mid "unsend" = .ok store' ∧
      (∀ x ∈ store', x.id = mid → x.is_unsent = true ∧ x.content = "") ∧
      store'.length = store.length ∧
      (∀ x ∈ store, x.id ≠ mid → x ∈ store') ∧
      message_action store' m.sender mid "unsend" = .ok store') := by
  constructor
  · intro caller hcaller
    have hnone : store.find? (fun x => x.id == mid && x.sender == caller)
        = none := by
      rw [List.find?_eq_none]
      intro x hx
      simp only [Bool.and_eq_true, beq_iff_eq, not_and]
      intro hxid
      have hxm := hid x hx hxid
      subst hxm
      exact fun hs => hcaller hs.symm
    constructor
    · unfold message_action
      rw [hnone]
    · unfold message_action_apply message_action
      rw [hnone]
  · have hpm : (fun x => x.id == mid && x.sender == m.sender) m = true := by
      simp [hmid]
    have hsome :
        (store.find? (fun x => x.id == mid && x.sender == m.sender)).isSome :=
      List.find?_isSome.mpr ⟨m, hm, hpm⟩
    obtain ⟨w, hw⟩ := Option.isSome_iff_exists.mp hsome
    refine ⟨store.map (unsend_update m.sender mid), ?_, ?_, ?_, ?_, ?_⟩
    · unfold message_action
      rw [hw]
      simp
    · intro x hx hxid
      rcases List.mem_map.mp hx with ⟨y, hy, rfl⟩
      by_cases hc : (y.id == mid && y.sender == m.sender) = true
      · simp [unsend_update, hc]
      · have hyid : y.id = mid := by
          by_contra hne
          have : unsend_update m.sender mid y = y := by
            simp [unsend_update, hne]
          rw [this] at hxid
          exact hne hxid
        have hym := hid y hy hyid
        subst hym
        exact absurd hpm hc
    · exact List.length_map store _
    · intro x hx hxid
      refine List.mem_map.mpr ⟨x, hx, ?_⟩
      simp [unsend_update, hxid]
    · have hfm :
        (fun x => x.id == mid && x.sender == m.sender)
          (unsend_update m.sender mid m) = true := by
        simp [unsend_update, hmid]
      have hsome' :
          ((store.map (unsend_update m.sender mid)).find?
            (fun x => x.id == mid && x.sender == m.sender)).isSome :=
        List.find?_isSome.mpr
          ⟨unsend_update m.sender mid m, List.mem_map.mpr ⟨m, hm, rfl⟩, hfm⟩
      obtain ⟨w', hw'⟩ := Option.isSome_iff_exists.mp hsome'
      unfold message_action
      rw [hw']
      have hcomp : store.map
          (unsend_update m.sender mid ∘ unsend_update m.sender mid)
          = store.map (unsend_update m.sender mid) :=
        List.map_congr_left fun a _ => unsend_update_idem m.sender mid a
      simp [List.map_map, hcomp]

/-- Witness for C6 on a one-message store owned by user 1. -/
theorem C6_witness :
    (∀ caller, caller ≠ (mkMsg 10 1 "hi" 1 none).sender →
      message_action [mkMsg 10 1 "hi" 1 none] caller 10 "unsend" =
        .error "Message not found" ∧
      message_action_apply [mkMsg 10 1 "hi" 1 none] caller 10 "unsend" =
        [mkMsg 10 1 "hi" 1 none]) ∧
    (∃ store', message_action [mkMsg 10 1 "hi" 1 none]
        (mkMsg 10 1 "hi" 1 none).sender 10 "unsend" = .ok store' ∧
      (∀ x ∈ store', x.id = 10 → x.is_unsent = true ∧ x.content = "") ∧
      store'.length = [mkMsg 10 1 "hi" 1 none].length ∧
      (∀ x ∈ [mkMsg 10 1 "hi" 1 none], x.id ≠ 10 → x ∈ store') ∧
      message_action store' (mkMsg 10 1 "hi" 1 none).sender 10 "unsend" =
        .ok store') :=
  C6_unsend_owner_only_and_idempotent [mkMsg 10 1 "hi" 1 none]
    (mkMsg 10 1 "hi" 1 none) 10 (by decide) (by decide)
    (by intro m' hm' _; simpa using hm')


/-- C1: a REST send by participant `u` into a pending message request (with
the other participant present) persists the new message and flips
`request_status` to `accepted` exactly when, after persisting, some message
of the conversation has a sender other than `u`; since the new message's
sender is `u`, repeated sends by the initiator alone leave the request
pending, and the first send by the other participant flips it. -/
theorem C1_rest_send_auto_accept (c : Conversation) (u : Nat)
    (raw_content message_type : String) (is_encrypted : Bool) (now new_id : Nat)
    (hpart : u ∈ c.participants)
    (hother : c.participants.any (fun v => v != u) = true)
    (hreq : c.is_request = true) (hpend : c.request_status = "pending")
    (hne : ¬ (strip raw_content = "" ∧ message_type = "text"))
    (hlen : (strip raw_content).length ≤ (if is_encrypted then 10000 else 5000)) :
    ∃ c' nm, conversation_messages_post c u raw_content message_type
        is_encrypted now new_id = .ok c' ∧
      nm.sender = u ∧ c'.msgs = c.msgs ++ [nm] ∧
      (c'.request_status = "accepted" ↔ ∃ m ∈ c'.msgs, m.sender ≠ u) ∧
      ((¬ ∃ m ∈ c.msgs, m.sender ≠ u) → c'.request_status = "pending") := by
  have hlen' : ¬ (strip raw_content).length >
      (if is_encrypted then 10000 else 5000) := Nat.not_lt.mpr hlen
  obtain ⟨v, hv, hvu⟩ := List.any_eq_true.mp hother
  have hhead : ((c.participants.filter (fun w => w != u)).head?).isSome = true := by
    rw [List.head?_isSome]
    intro hnil
    have hvf : v ∈ c.participants.filter (fun w => w != u) :=
      List.mem_filter.mpr ⟨hv, hvu⟩
    rw [hnil] at hvf
    exact absurd hvf (List.not_mem_nil v)
  by_cases hb : (c.msgs.any (fun x => x.sender != u)) = true
  · refine ⟨{ c with
        msgs := c.msgs ++ [new_direct_message u (strip raw_content) message_type is_encrypted now new_id],
        updated_at := now,
        request_status := "accepted" },
      new_direct_message u (strip raw_content) message_type is_encrypted now new_id,
      ?_, rfl, rfl, ?_, ?_⟩
    · simp only [conversation_messages_post, get_other_participant]
      rw [if_pos hpart, if_neg hne, if_neg hlen']
      simp only [new_direct_message, List.any_append, List.any_cons,
        List.any_nil, Bool.or_false, bne_self_eq_false]
      rw [if_pos ⟨hreq, hpend⟩, if_pos ⟨hhead, hb⟩]
    · constructor
      · intro _
        obtain ⟨x, hx, hxu⟩ := List.any_eq_true.mp hb
        exact ⟨x, List.mem_append_left _ hx, bne_iff_ne.mp hxu⟩
      · intro _
        rfl
    · intro hno
      exfalso
      obtain ⟨x, hx, hxu⟩ := List.any_eq_true.mp hb
      exact hno ⟨x, hx, bne_iff_ne.mp hxu⟩
  · refine ⟨{ c with
        msgs := c.msgs ++ [new_direct_message u (strip raw_content) message_type is_encrypted now new_id],
        updated_at := now },
      new_direct_message u (strip raw_content) message_type is_encrypted now new_id,
      ?_, rfl, rfl, ?_, ?_⟩
    · simp only [conversation_messages_post, get_other_participant]
      rw [if_pos hpart, if_neg hne, if_neg hlen']
      simp only [new_direct_message, List.any_append, List.any_cons,
        List.any_nil, Bool.or_false, bne_self_eq_false]
      rw [if_pos ⟨hreq, hpend⟩, if_neg (fun hc => hb hc.2)]
    · constructor
      · intro hacc
        exfalso
        rw [hpend] at hacc
        exact absurd hacc (by decide)
      · intro hex
        exfalso
        obtain ⟨m, hm, hmu⟩ := hex
        rcases List.mem_append.mp hm with hml | hmr
        · exact hb (List.any_eq_true.mpr ⟨m, hml, bne_iff_ne.mpr hmu⟩)
        · rcases List.mem_singleton.mp hmr with rfl
          exact hmu rfl
    · intro _
      exact hpend

/-- Witness for C1: user 2 (the recipient) replies into the pending request
`convReq`, which flips it to accepted. -/
theorem C1_witness :
    ∃ c' nm, conversation_messages_post convReq 2 "hey" "text" false 5 11 =
        .ok c' ∧
      nm.sender = 2 ∧ c'.msgs = convReq.msgs ++ [nm] ∧
      (c'.request_status = "accepted" ↔ ∃ m ∈ c'.msgs, m.sender ≠ 2) ∧
      ((¬ ∃ m ∈ convReq.msgs, m.sender ≠ 2) → c'.request_status = "pending") :=
  C1_rest_send_auto_accept convReq 2 "hey" "text" false 5 11 (by decide)
    (by decide) (by decide) (by decide) (by decide) (by decide)

/-- If some message is unread and from another sender, the read-marking pass
really changes the list. -/
lemma map_read_update_ne (u now : Nat) :
    ∀ l : List DirectMessage, (∃ m ∈ l, m.read_at = none ∧ m.sender ≠ u) →
      l.map (read_update u now) ≠ l := by
  intro l
  induction l with
  | nil =>
    intro hex
    simp at hex
  | cons a l ih =>
    intro hex heq
    simp only [List.map_cons] at heq
    injection heq with h1 h2
    rcases hex with ⟨m, hm, hcond⟩
    rcases List.mem_cons.mp hm with rfl | hml
    · rw [read_update, if_pos hcond] at h1
      have h3 := congrArg DirectMessage.read_at h1
      rw [hcond.1] at h3
      exact Option.noConfusion h3
    · exact ih ⟨m, hml, hcond⟩ h2

/-- C3 counterexample: user 3 is not a participant of `convA`, yet the
Message Router's markRead (`ChatConsumer.mark_messages_read`) performed by
user 3 reports one message read and modifies the conversation's messages,
instead of failing with a not-a-participant error and leaving them
untouched. -/
theorem C3_counterexample :
    3 ∉ convA.participants ∧
    (mark_messages_read convA 3 99).2 = 1 ∧
    (mark_messages_read convA 3 99).1.msgs ≠ convA.msgs := by
  decide

/-- C3 as amended: only the send operation enforces the participant check —
a non-participant's WebSocket send fails with the not-a-participant error and
persists nothing — while typing and markRead perform no participant check:
typing by a non-participant is still relayed (to the first participant), and
markRead by a non-participant still read-marks and counts every unread
message from a sender other than the caller, modifying state whenever such a
message exists. -/
theorem C3_amended_only_send_checks_participation (c : Conversation) (u : Nat)
    (content mt : String) (now new_id : Nat) (b : Bool)
    (h : u ∉ c.participants) :
    save_message c u content mt now new_id =
      .error "Not a participant in this conversation" ∧
    save_message_apply c u content mt now new_id = c ∧
    (c.participants ≠ [] → (handle_typing c u b).isSome = true) ∧
    mark_messages_read c u now =
      ({ c with msgs := c.msgs.map (read_update u now) },
       (c.msgs.filter (fun m => decide (m.read_at = none ∧ m.sender ≠ u))).length) ∧
    ((∃ m ∈ c.msgs, m.read_at = none ∧ m.sender ≠ u) →
      (mark_messages_read c u now).1.msgs ≠ c.msgs) := by
  refine ⟨?_, ?_, ?_, rfl, ?_⟩
  · unfold save_message
    rw [if_neg h]
  · unfold save_message_apply save_message
    rw [if_neg h]
  · intro hne
    have hfil : c.participants.filter (fun v => v != u) = c.participants :=
      List.filter_eq_self.mpr fun x hx => bne_iff_ne.mpr fun hxu => h (hxu ▸ hx)
    obtain ⟨a, l, hl⟩ := List.exists_cons_of_ne_nil hne
    have ha : (a != u) = true :=
      bne_iff_ne.mpr fun hau => h (hau ▸ (hl ▸ List.mem_cons_self a l))
    have hfind : List.find? (fun v => v != u) (a :: l) = some a := by
      simp [List.find?_cons, ha]
    simp only [handle_typing, get_conversation_recipient, hl,
      List.filter_head?, hfind]
    rfl
  · intro hex
    exact map_read_update_ne u now c.msgs hex

/-- Witness for the amended C3 at `convA` with non-participant caller 3. -/
theorem C3_amended_witness :
    save_message convA 3 "x" "text" 7 12 =
      .error "Not a participant in this conversation" ∧
    save_message_apply convA 3 "x" "text" 7 12 = convA ∧
    (convA.participants ≠ [] → (handle_typing convA 3 true).isSome = true) ∧
    mark_messages_read convA 3 7 =
      ({ convA with msgs := convA.msgs.map (read_update 3 7) },
       (convA.msgs.filter
         (fun m => decide (m.read_at = none ∧ m.sender ≠ 3))).length) ∧
    ((∃ m ∈ convA.msgs, m.read_at = none ∧ m.sender ≠ 3) →
      (mark_messages_read convA 3 7).1.msgs ≠ convA.msgs) :=
  C3_amended_only_send_checks_participation convA 3 "x" "text" 7 12 true
    (by decide)

/-- Containing two distinct members of the pair {u, r} is the same test as
containing u and r. -/
lemma both_participants_pair (a b u r : Nat) (hab : a ≠ b)
    (ha : a = u ∨ a = r) (hb : b = u ∨ b = r) :
    ∀ c : Conversation, both_participants a b c = both_participants u r c := by
  intro c
  rcases ha with rfl | rfl <;> rcases hb with rfl | rfl
  · exact absurd rfl hab
  · rfl
  · simp [both_participants, Bool.and_comm]
  · exact absurd rfl hab

/-- One `conversations_view` POST preserves "at most one conversation holds
any given pair of distinct users". -/
lemma conversations_post_apply_pair_le (convos : List Conversation)
    (u r : Nat) (follows : Nat → Nat → Bool) (now : Nat) (a b : Nat)
    (hab : a ≠ b) (hle : pair_count convos a b ≤ 1) :
    pair_count (conversations_post_apply convos u r follows now) a b ≤ 1 := by
  unfold conversations_post_apply conversations_post
  by_cases hur : r = u
  · rw [if_pos hur]
    exact hle
  · rw [if_neg hur]
    cases hfind : convos.find? (both_participants u r) with
    | some convo => exact hle
    | none =>
      show pair_count (convos ++
        [{ participants := [u, r],
           is_request := !(follows r u),
           request_status := if follows r u then "accepted" else "pending",
           msgs := [],
           updated_at := now }]) a b ≤ 1
      set newc : Conversation :=
        { participants := [u, r],
          is_request := !(follows r u),
          request_status := if follows r u then "accepted" else "pending",
          msgs := [],
          updated_at := now } with hnewc
      unfold pair_count
      rw [List.filter_append, List.length_append]
      by_cases hnew : both_participants a b newc = true
      · have hpair : (a = u ∨ a = r) ∧ (b = u ∨ b = r) := by
          rw [hnewc] at hnew
          simpa [both_participants] using hnew
        have hswap := both_participants_pair a b u r hab hpair.1 hpair.2
        have hzero : (convos.filter (both_participants a b)).length = 0 := by
          rw [List.length_eq_zero, List.filter_eq_nil_iff]
          intro c hc
          rw [hswap c]
          exact List.find?_eq_none.mp hfind c hc
        rw [hzero]
        simp [List.filter_cons, hnew]
      · have hone : (List.filter (both_participants a b) [newc]).length = 0 := by
          rw [List.length_eq_zero, List.filter_eq_nil_iff]
          intro c hc
          rw [List.mem_singleton.mp hc]
          exact fun hcc => hnew hcc
        rw [hone]
        have hle' : (List.filter (both_participants a b) convos).length ≤ 1 := hle
        omega

/-- Any sequence of `conversations_view` POST operations preserves pair
uniqueness. -/
lemma conversations_post_run_pair_le (follows : Nat → Nat → Bool) :
    ∀ (ops : List (Nat × Nat × Nat)) (convos : List Conversation),
      (∀ a b, a ≠ b → pair_count convos a b ≤ 1) →
      ∀ a b, a ≠ b → pair_count (conversations_post_run convos ops follows) a b ≤ 1 := by
  intro ops
  induction ops with
  | nil => exact fun convos h => h
  | cons op ops ih =>
    intro convos h a b hab
    exact ih (conversations_post_apply convos op.1 op.2.1 follows op.2.2)
      (fun a' b' hab' =>
        conversations_post_apply_pair_le convos op.1 op.2.1 follows op.2.2
          a' b' hab' (h a' b' hab')) a b hab

/-- C7: starting from a store where every pair of distinct users shares at
most one conversation, any number of start-conversation operations keeps it
that way, and a start-conversation call that finds a conversation containing
both users returns that existing conversation and stores nothing new. -/
theorem C7_conversation_pair_unique (convos : List Conversation)
    (ops : List (Nat × Nat × Nat)) (follows : Nat → Nat → Bool)
    (hinv : ∀ a b, a ≠ b → pair_count convos a b ≤ 1) :
    (∀ a b, a ≠ b →
      pair_count (conversations_post_run convos ops follows) a b ≤ 1) ∧
    (∀ u r now c0, r ≠ u →
      convos.find? (both_participants u r) = some c0 →
      conversations_post convos u r follows now = .ok (convos, c0)) := by
  constructor
  · exact conversations_post_run_pair_le follows ops convos hinv
  · intro u r now c0 hru hfind
    unfold conversations_post
    rw [if_neg hru, hfind]

/-- Witness for C7: three start operations between users 1 and 2 (in both
directions) leave at most one conversation containing the pair. -/
theorem C7_witness :
    pair_count (conversations_post_run []
      [(1, 2, 5), (2, 1, 6), (1, 2, 7)] (fun _ _ => false)) 1 2 ≤ 1 :=
  (C7_conversation_pair_unique [] [(1, 2, 5), (2, 1, 6), (1, 2, 7)]
    (fun _ _ => false)
    (fun a b _ => by simp [pair_count])).1 1 2 (by decide)

/-- Dropping from the reversal is reversing the take from the front. -/
lemma reverse_drop_eq_take_reverse {α : Type} (l : List α) (k : Nat) :
    l.reverse.drop k = (l.take (l.length - k)).reverse := by
  have h := List.rdrop_eq_reverse_drop_reverse l k
  unfold List.rdrop at h
  rw [h, List.reverse_reverse]

/-- Re-reversing the take from the reversal is dropping from the front. -/
lemma reverse_take_reverse_eq_drop {α : Type} (l : List α) (k : Nat) :
    (l.reverse.take k).reverse = l.drop (l.length - k) := by
  have h := List.rtake_eq_reverse_take_reverse l k
  unfold List.rtake at h
  exact h.symm

/-- The pruning step of `LivestreamViewSet.signals` POST: deleting by id
every record past the 100 newest keeps exactly the final 100 records of the
chronological list (ids must be unique, as database primary keys are). -/
lemma filter_not_in_excess (l : List LivestreamSignal)
    (hnd : (l.map (fun x => x.id)).Nodup) :
    l.filter (fun x => !((l.reverse.drop 100).any (fun e => e.id == x.id))) =
      l.drop (l.length - 100) := by
  rw [reverse_drop_eq_take_reverse l 100]
  set A := l.take (l.length - 100) with hA
  set B := l.drop (l.length - 100) with hB
  have hl : l = A ++ B := (List.take_append_drop _ _).symm
  rw [hl] at hnd ⊢
  rw [List.filter_append]
  have h1 : A.filter (fun x => !(A.reverse.any (fun e => e.id == x.id))) = [] := by
    rw [List.filter_eq_nil_iff]
    intro x hx
    have hany : (A.reverse.any (fun e => e.id == x.id)) = true :=
      List.any_eq_true.mpr ⟨x, List.mem_reverse.mpr hx, by simp⟩
    simp [hany]
  have h2 : B.filter (fun x => !(A.reverse.any (fun e => e.id == x.id))) = B := by
    rw [List.filter_eq_self]
    intro x hx
    have hdis : (A.map (fun x => x.id)).Disjoint (B.map (fun x => x.id)) :=
      List.disjoint_of_nodup_append (by rw [← List.map_append]; exact hnd)
    have hany : (A.reverse.any (fun e => e.id == x.id)) = false := by
      rw [List.any_eq_false]
      intro e he
      have hne : e.id ≠ x.id := by
        intro heq
        apply hdis (List.mem_map_of_mem _ (List.mem_reverse.mp he))
        rw [heq]
        exact List.mem_map_of_mem _ hx
      simp [hne]
    simp [hany]
  rw [h1, h2, List.nil_append]

/-- C4: a valid signal POST stores the record and prunes the stream's buffer
to the final (most recent, by the strictly increasing creation times) 100
records of the chronological list: at most 100 remain (exactly
min(n+1, 100)), chronological order is preserved, and posting onto a full
buffer of 100 keeps the count at 100 while deleting exactly the oldest
record. -/
theorem C4_signal_buffer_pruned (s : Livestream) (role kind payload : String)
    (now new_id : Nat)
    (hrole : role = "host" ∨ role = "viewer")
    (hkind : kind = "offer" ∨ kind = "answer" ∨ kind = "candidate")
    (hnd : (s.signals.map (fun x => x.id)).Nodup)
    (hfresh : ∀ x ∈ s.signals, x.id ≠ new_id)
    (hchrono : List.Pairwise (fun x y => x.created_at < y.created_at) s.signals)
    (htime : ∀ x ∈ s.signals, x.created_at < now) :
    ∃ s', livestream_signals_post s role kind (some payload) now new_id =
        .ok s' ∧
      s'.signals = (s.signals ++ [new_signal role kind payload now new_id]).drop
        ((s.signals.length + 1) - 100) ∧
      s'.signals.length = min (s.signals.length + 1) 100 ∧
      List.Pairwise (fun x y => x.created_at < y.created_at) s'.signals ∧
      (s.signals.length = 100 → s'.signals.length = 100 ∧
        s'.signals =
          (s.signals ++ [new_signal role kind payload now new_id]).drop 1) := by
  have hvalid : ¬(¬(role = "host" ∨ role = "viewer") ∨
      ¬(kind = "offer" ∨ kind = "answer" ∨ kind = "candidate")) := by
    intro h
    rcases h with h | h
    · exact h hrole
    · exact h hkind
  have hnd1 : ((s.signals ++ [new_signal role kind payload now new_id]).map
      (fun x => x.id)).Nodup := by
    rw [List.map_append, List.nodup_append]
    refine ⟨hnd, List.nodup_singleton _, ?_⟩
    intro a ha hb
    rcases List.mem_map.mp ha with ⟨x, hx, rfl⟩
    simp [new_signal] at hb
    exact hfresh x hx hb
  have hlen1 : (s.signals ++ [new_signal role kind payload now new_id]).length
      = s.signals.length + 1 := by
    simp
  have hkept := filter_not_in_excess _ hnd1
  have hchrono1 : List.Pairwise (fun x y => x.created_at < y.created_at)
      (s.signals ++ [new_signal role kind payload now new_id]) := by
    rw [List.pairwise_append]
    refine ⟨hchrono, List.pairwise_singleton _ _, ?_⟩
    intro x hx y hy
    obtain rfl := List.mem_singleton.mp hy
    exact htime x hx
  refine ⟨{ s with
      signals := (s.signals ++ [new_signal role kind payload now new_id]).drop
        ((s.signals.length + 1) - 100) },
    ?_, rfl, ?_, ?_, ?_⟩
  · simp only [livestream_signals_post, order_by_created_desc]
    rw [if_neg hvalid]
    rw [hkept, hlen1]
  · show ((s.signals ++ [new_signal role kind payload now new_id]).drop
      ((s.signals.length + 1) - 100)).length = min (s.signals.length + 1) 100
    rw [List.length_drop, hlen1]
    omega
  · exact List.Pairwise.sublist (List.drop_sublist _ _) hchrono1
  · intro h100
    constructor
    · show ((s.signals ++ [new_signal role kind payload now new_id]).drop
        ((s.signals.length + 1) - 100)).length = 100
      rw [List.length_drop, hlen1, h100]
    · show (s.signals ++ [new_signal role kind payload now new_id]).drop
        ((s.signals.length + 1) - 100) =
        (s.signals ++ [new_signal role kind payload now new_id]).drop 1
      rw [h100]

/-- Witness for C4: posting a valid signal onto `streamA` (two stored
signals). -/
theorem C4_witness :
    ∃ s', livestream_signals_post streamA "host" "offer" (some "p") 9 7 =
        .ok s' ∧
      s'.signals = (streamA.signals ++ [new_signal "host" "offer" "p" 9 7]).drop
        ((streamA.signals.length + 1) - 100) ∧
      s'.signals.length = min (streamA.signals.length + 1) 100 ∧
      List.Pairwise (fun x y => x.created_at < y.created_at) s'.signals ∧
      (streamA.signals.length = 100 → s'.signals.length = 100 ∧
        s'.signals =
          (streamA.signals ++ [new_signal "host" "offer" "p" 9 7]).drop 1) :=
  C4_signal_buffer_pruned streamA "host" "offer" "p" 9 7 (by decide)
    (by decide) (by decide) (by decide) (by decide) (by decide)

/-- The chat GET (`order_by('-created_at')[:100]` then re-reversed) returns
exactly the final 100 entries of the chronological message list. -/
lemma livestream_messages_get_eq_drop (s : Livestream) :
    livestream_messages_get s = s.msgs.drop (s.msgs.length - 100) := by
  unfold livestream_messages_get order_by_created_desc
  exact reverse_take_reverse_eq_drop s.msgs 100

/-- C8 as amended: an authenticated post while the stream is not live is
rejected with the stream-not-live error and stores nothing; while live, a
post whose stripped content is non-empty and at most 500 characters succeeds,
and the chat GET then returns the most recent 100 messages in chronological
order with the new message last. -/
theorem C8_stream_chat_gate_and_order (s : Livestream) (uid : Nat)
    (raw : String) (now new_id : Nat)
    (hchrono : List.Pairwise (fun x y => x.created_at < y.created_at) s.msgs)
    (htime : ∀ x ∈ s.msgs, x.created_at < now) :
    (s.status ≠ "live" →
      livestream_messages_post s (some uid) raw now new_id =
        .error "Stream is not live" ∧
      livestream_messages_post_apply s (some uid) raw now new_id = s) ∧
    (s.status = "live" → strip raw ≠ "" → (strip raw).length ≤ 500 →
      ∃ s' m, livestream_messages_post s (some uid) raw now new_id =
          .ok (s', m) ∧
        m.content = strip raw ∧ m.created_at = now ∧
        s'.msgs = s.msgs ++ [m] ∧
        livestream_messages_get s' = s'.msgs.drop (s'.msgs.length - 100) ∧
        (livestream_messages_get s').getLast? = some m ∧
        List.Pairwise (fun x y => x.created_at < y.created_at)
          (livestream_messages_get s')) := by
  constructor
  · intro hnl
    constructor
    · simp only [livestream_messages_post]
      rw [if_pos hnl]
    · simp only [livestream_messages_post_apply, livestream_messages_post]
      rw [if_pos hnl]
  · intro hlive hraw hlen
    have hpost : livestream_messages_post s (some uid) raw now new_id =
        .ok ({ s with msgs := s.msgs ++ [⟨new_id, uid, strip raw, now⟩] },
          ⟨new_id, uid, strip raw, now⟩) := by
      simp only [livestream_messages_post]
      rw [if_neg (fun hn => hn hlive), if_neg hraw,
        if_neg (Nat.not_lt.mpr hlen)]
    have hp1 : List.Pairwise (fun x y => x.created_at < y.created_at)
        (s.msgs ++ [(⟨new_id, uid, strip raw, now⟩ : LivestreamMessage)]) := by
      rw [List.pairwise_append]
      refine ⟨hchrono, List.pairwise_singleton _ _, ?_⟩
      intro x hx y hy
      obtain rfl := List.mem_singleton.mp hy
      exact htime x hx
    refine ⟨{ s with msgs := s.msgs ++ [⟨new_id, uid, strip raw, now⟩] },
      ⟨new_id, uid, strip raw, now⟩, hpost, rfl, rfl, rfl,
      livestream_messages_get_eq_drop _, ?_, ?_⟩
    · rw [livestream_messages_get_eq_drop]
      show ((s.msgs ++ [(⟨new_id, uid, strip raw, now⟩ : LivestreamMessage)]).drop
        ((s.msgs ++ [(⟨new_id, uid, strip raw, now⟩ : LivestreamMessage)]).length - 100)).getLast?
        = some ⟨new_id, uid, strip raw, now⟩
      rw [List.drop_append_eq_append_drop]
      have h0 : (s.msgs ++ [(⟨new_id, uid, strip raw, now⟩ : LivestreamMessage)]).length
          - 100 - s.msgs.length = 0 := by
        rw [List.length_append]
        simp
      rw [h0]
      simp [List.getLast?_concat]
    · rw [livestream_messages_get_eq_drop]
      exact List.Pairwise.sublist (List.drop_sublist _ _) hp1

set_option maxRecDepth 4000 in
/-- C8 counterexample: `streamA` is live and a 501-character body has
non-empty stripped content, yet the post is rejected with "Message too long"
instead of succeeding. -/
theorem C8_counterexample :
    strip longContent ≠ "" ∧ streamA.status = "live" ∧
    livestream_messages_post streamA (some 1) longContent 5 7 =
      .error "Message too long" := by
  refine ⟨?_, rfl, ?_⟩
  · decide
  · rfl

/-- Witness for the amended C8: user 1 posts "hi" onto the live `streamA`. -/
theorem C8_witness :
    (streamA.status ≠ "live" →
      livestream_messages_post streamA (some 1) "hi" 5 7 =
        .error "Stream is not live" ∧
      livestream_messages_post_apply streamA (some 1) "hi" 5 7 = streamA) ∧
    (streamA.status = "live" → strip "hi" ≠ "" → (strip "hi").length ≤ 500 →
      ∃ s' m, livestream_messages_post streamA (some 1) "hi" 5 7 =
          .ok (s', m) ∧
        m.content = strip "hi" ∧ m.created_at = 5 ∧
        s'.msgs = streamA.msgs ++ [m] ∧
        livestream_messages_get s' = s'.msgs.drop (s'.msgs.length - 100) ∧
        (livestream_messages_get s').getLast? = some m ∧
        List.Pairwise (fun x y => x.created_at < y.created_at)
          (livestream_messages_get s')) :=
  C8_stream_chat_gate_and_order streamA 1 "hi" 5 7 (by decide) (by decide)
